import Mathlib

/-!
# Verification of the analyst-agent portfolio engine

A shallow embedding, in Lean 4, of the portfolio valuation, drift-alert,
rebalance-planning and Monte-Carlo projection code of the `analyst-agent`
repository (`src/drift-alerts.js`, `src/montecarlo.js`, `src/mnav.js`), together
with theorems settling the specification claims about it.

Modelling conventions:
* JavaScript numbers are modelled as exact rationals (`ℚ`); the claims under
  scrutiny are structural (lengths, ordering, clamping, branching) and hold at
  the level of exact arithmetic.
* `Math.sqrt(12)` has no rational value, so the simulator takes the value of
  the square root as an explicit parameter `sqrt12`; every theorem about the
  simulator is proved for an arbitrary value of that parameter.
* The ambient random source (`Math.random` through the Box-Muller transform)
  is modelled as an injected stream of standard-normal draws, indexed by
  simulation run, month and position.
* Timestamps (`Date`) are modelled as integer milliseconds; `Date.now()` and
  the `cutoff` computations become explicit integer parameters.
* File-backed state (the alert log, the drift history) is passed and returned
  explicitly: each persisted collection is an argument and a component of the
  result.
-/

namespace AnalystAgent

/-- Alert severity levels (`AlertSeverity` in drift-alerts.js). -/
inductive Severity where
  | info
  | warning
  | critical
deriving DecidableEq, Repr, Inhabited

/-- A portfolio position as produced by the Position Valuator
(`calculatePortfolio`): the spec's Position record
`{symbol, quantity, price, value, targetAllocation, actualAllocation, drift,
needsRebalance}`. -/
structure Position where
  symbol : String
  quantity : ℚ
  price : ℚ
  value : ℚ
  targetAllocation : ℚ
  actualAllocation : ℚ
  drift : ℚ
  needsRebalance : Bool
deriving DecidableEq, Repr

/-- A portfolio snapshot `{totalValue, positions}`. -/
structure Portfolio where
  totalValue : ℚ
  positions : List Position
deriving DecidableEq, Repr

/-- The alert configuration (`loadAlertConfig` defaults): warning/critical
drift thresholds (fractions) and the cooldown in minutes. -/
structure AlertConfig where
  warning : ℚ
  critical : ℚ
  cooldown : ℚ
deriving DecidableEq, Repr

/-- A stored alert record, as built in `checkDriftAlerts`
(`id`, `symbol`, `severity`, `drift`, `driftPercent`, `actualAllocation`,
`targetAllocation`, `value`, `timestamp`, `acknowledged`). The timestamp is in
integer milliseconds; the `id` string `` `${symbol}-${Date.now()}` `` is
modelled with `toString` of the clock value. -/
structure StoredAlert where
  id : String
  symbol : String
  severity : Severity
  drift : ℚ
  driftPercent : ℚ
  actualAllocation : ℚ
  targetAllocation : ℚ
  value : ℚ
  timestamp : ℤ
  acknowledged : Bool
deriving DecidableEq, Repr, Inhabited

/-- The alert object pushed by `checkDriftAlerts` for a drifted position.
(`driftPercent` is carried by the source position object; it is modelled
numerically as `drift * 100`.) -/
def mkAlert (p : Position) (sev : Severity) (now : ℤ) : StoredAlert :=
  { id := p.symbol ++ "-" ++ toString now
    symbol := p.symbol
    severity := sev
    drift := p.drift
    driftPercent := p.drift * 100
    actualAllocation := p.actualAllocation
    targetAllocation := p.targetAllocation
    value := p.value
    timestamp := now
    acknowledged := false }

/-- Severity classification of a drift value (`checkDriftAlerts`, the
`absDrift` thresholds): `critical` if `|drift| ≥ critical`, else `warning` if
`|drift| ≥ warning`, else none. -/
def severityFor (cfg : AlertConfig) (drift : ℚ) : Option Severity :=
  if |drift| ≥ cfg.critical then some Severity.critical
  else if |drift| ≥ cfg.warning then some Severity.warning
  else none

/-- The cooldown-suppression test used in `checkDriftAlerts`: an existing
alert matches when it has the same symbol, the same severity, and was
recorded less than `cooldown` minutes (converted to milliseconds) ago. -/
def isRecentSame (cfg : AlertConfig) (now : ℤ) (symbol : String)
    (sev : Severity) (a : StoredAlert) : Bool :=
  decide (a.symbol = symbol) && decide (a.severity = sev) &&
    decide (((now - a.timestamp : ℤ) : ℚ) < cfg.cooldown * 60 * 1000)

/-- The alert batch built by the position loop of `checkDriftAlerts`: for each
position, classify its drift; when a severity results, emit a new alert unless
an existing alert suppresses it. -/
def driftAlertsFor (cfg : AlertConfig) (positions : List Position)
    (existing : List StoredAlert) (now : ℤ) : List StoredAlert :=
  positions.foldl (fun alerts p =>
    match severityFor cfg p.drift with
    | none => alerts
    | some sev =>
      match existing.find? (isRecentSame cfg now p.symbol sev) with
      | some _ => alerts
      | none => alerts ++ [mkAlert p sev now]) []

/-- JavaScript's `array.slice(-n)`: the last `n` elements. -/
def takeLast (n : ℕ) (l : List α) : List α := l.drop (l.length - n)

/-- One record of the persisted drift history (`saveDriftSnapshot`):
per-position allocation and drift data, stamped with the check time. -/
structure SnapPosition where
  symbol : String
  actualAllocation : ℚ
  targetAllocation : ℚ
  drift : ℚ
  value : ℚ
deriving DecidableEq, Repr

/-- A drift-history snapshot `{timestamp, positions}`. -/
structure Snapshot where
  timestamp : ℤ
  positions : List SnapPosition
deriving DecidableEq, Repr

/-- `saveDriftSnapshot`: append the new snapshot, then keep only records newer
than 30 days before `now`. -/
def saveDriftSnapshot (history : List Snapshot) (positions : List Position)
    (now : ℤ) : List Snapshot :=
  let snapshot : Snapshot :=
    ⟨now, positions.map (fun p =>
      ⟨p.symbol, p.actualAllocation, p.targetAllocation, p.drift, p.value⟩)⟩
  let history' := history ++ [snapshot]
  history'.filter (fun h => decide (h.timestamp > now - 30 * 24 * 60 * 60 * 1000))

/-- The value returned by `checkDriftAlerts`: the batch of newly emitted
alerts, and the error message on the failure path. -/
structure CheckResult where
  alerts : List StoredAlert
  error : Option String
deriving DecidableEq, Repr

/-- `checkDriftAlerts`, with the persisted state explicit: takes the valuation
result, the stored alert log and the drift history, and returns the check
result together with the new alert log and the new history. On a valuation
error it returns the error with an empty alert batch and leaves both persisted
collections untouched; otherwise it records a history snapshot, emits the
alert batch, and (when the batch is non-empty) appends it to the log and trims
the log to the last 100 entries. -/
def checkDriftAlerts (cfg : AlertConfig) (portfolioResult : Except String Portfolio)
    (store : List StoredAlert) (history : List Snapshot) (now : ℤ) :
    CheckResult × List StoredAlert × List Snapshot :=
  match portfolioResult with
  | Except.error e => (⟨[], some e⟩, store, history)
  | Except.ok portfolio =>
    let history' := saveDriftSnapshot history portfolio.positions now
    let alerts := driftAlertsFor cfg portfolio.positions store now
    let store' := if alerts.length > 0 then takeLast 100 (store ++ alerts) else store
    (⟨alerts, none⟩, store', history')

/-- The `(timestamp, drift)` points that `getDriftTrend` extracts for a
symbol: history records newer than the cutoff that contain a position with
that symbol. -/
def relevantDriftPoints (history : List Snapshot) (symbol : String)
    (cutoff : ℤ) : List (ℤ × ℚ) :=
  (history.filter (fun h => decide (h.timestamp > cutoff))).filterMap
    (fun h => (h.positions.find? (fun p => decide (p.symbol = symbol))).map
      (fun p => (h.timestamp, p.drift)))

/-- The two result shapes of `getDriftTrend`: the `insufficient_data` record,
or the computed record with trend label, net change, data-point count and the
first/last drift values. -/
inductive TrendResult where
  | insufficientData (points : ℕ)
  | computed (trend : String) (change : ℚ) (dataPoints : ℕ)
      (firstDrift lastDrift : ℚ)
deriving DecidableEq, Repr

/-- `getDriftTrend`: with fewer than 2 relevant points report
`insufficient_data`; otherwise classify the net change between the first and
last recorded drift (stable when `|change| < 0.01`, else increasing when
positive, else decreasing). -/
def getDriftTrend (history : List Snapshot) (symbol : String) (cutoff : ℤ) :
    TrendResult :=
  let relevant := relevantDriftPoints history symbol cutoff
  if relevant.length < 2 then
    TrendResult.insufficientData relevant.length
  else
    let first := (relevant.getD 0 (0, 0)).2
    let last := (relevant.getD (relevant.length - 1) (0, 0)).2
    let change := last - first
    let trend :=
      if |change| < 0.01 then "stable"
      else if change > 0 then "increasing"
      else "decreasing"
    TrendResult.computed trend change relevant.length first last

/-- Trade direction of a rebalance recommendation. -/
inductive TradeAction where
  | buy
  | sell
deriving DecidableEq, Repr

/-- Priority tier of a rebalance recommendation. -/
inductive RecoPriority where
  | high
  | medium
deriving DecidableEq, Repr

/-- One rebalance recommendation, as built in `getRebalanceRecommendation`. -/
structure Recommendation where
  symbol : String
  action : TradeAction
  currentValue : ℚ
  targetValue : ℚ
  difference : ℚ
  shares : ℚ
  priority : RecoPriority
deriving DecidableEq, Repr

/-- The recommendation record pushed for a position that needs rebalancing:
`targetValue = totalValue * targetAllocation`, `diff = targetValue - value`,
BUY when `diff > 0` else SELL, `shares = |diff / price|` guarded on a
positive price, HIGH priority when `|drift| > 0.10`. -/
def mkRecommendation (totalValue : ℚ) (p : Position) : Recommendation :=
  let targetValue := totalValue * p.targetAllocation
  let diff := targetValue - p.value
  { symbol := p.symbol
    action := if diff > 0 then TradeAction.buy else TradeAction.sell
    currentValue := p.value
    targetValue := targetValue
    difference := |diff|
    shares := if p.price > 0 then |diff / p.price| else 0
    priority := if |p.drift| > 0.10 then RecoPriority.high else RecoPriority.medium }

/-- The order realised by the comparator passed to `recommendations.sort`:
`a` may precede `b` when either the priorities differ and `a` is HIGH, or the
priorities agree and `a.difference ≥ b.difference`. -/
def recoLE (a b : Recommendation) : Bool :=
  if a.priority = b.priority then decide (b.difference ≤ a.difference)
  else decide (a.priority = RecoPriority.high)

/-- `getRebalanceRecommendation` (the recommendation list): one record per
position with `needsRebalance`, sorted by the priority/difference comparator.
(The JavaScript `Array.prototype.sort` with a consistent comparator is
modelled by `mergeSort` on the comparator's reflexive order.) -/
def getRebalanceRecommendation (portfolio : Portfolio) : List Recommendation :=
  ((portfolio.positions.filter (fun p => p.needsRebalance)).map
    (mkRecommendation portfolio.totalValue)).mergeSort recoLE

/-- The per-asset simulation parameters (montecarlo.js `ASSET_PARAMS`):
annual mean return, annual volatility, and the minimum-return floor. -/
structure AssetParams where
  meanReturn : ℚ
  volatility : ℚ
  minReturn : ℚ
deriving DecidableEq, Repr, Inhabited

/-- The `ASSET_PARAMS` lookup with its default bucket:
`ASSET_PARAMS[p.symbol] || ASSET_PARAMS.default`. -/
def assetParamsFor (symbol : String) : AssetParams :=
  if symbol = "BTC" then ⟨0.40, 0.80, -0.80⟩
  else if symbol = "MSTR" then ⟨0.50, 1.00, -0.90⟩
  else if symbol = "STRD" then ⟨0.20, 0.50, -0.50⟩
  else ⟨0.08, 0.20, -0.40⟩

/-- The slice of a position that the simulator reads: symbol and current
value. -/
structure SimPosition where
  symbol : String
  value : ℚ
deriving DecidableEq, Repr, Inhabited

/-- One `{month, value}` point of a simulation path. -/
structure PathPoint where
  month : ℕ
  value : ℚ
deriving DecidableEq, Repr, Inhabited

/-- One monthly update of one position's running value
(the body of the inner loop of `runSimulationPath`):
`monthlyMean = meanReturn/12`, `monthlyVol = volatility/sqrt12`,
`randomReturn = monthlyMean + monthlyVol * z`, floored at `minReturn/12`,
then `value * (1 + effectiveReturn)`. `sqrt12` stands for `Math.sqrt(12)`. -/
def stepPosition (sqrt12 : ℚ) (params : AssetParams) (value z : ℚ) : ℚ :=
  let monthlyMean := params.meanReturn / 12
  let monthlyVol := params.volatility / sqrt12
  let randomReturn := monthlyMean + monthlyVol * z
  let effectiveReturn := max randomReturn (params.minReturn / 12)
  value * (1 + effectiveReturn)

/-- One month of the simulation: update every position's running value with
its own draw (`zm i` is the draw for position `i` this month). -/
def simStep (sqrt12 : ℚ) (zm : ℕ → ℚ) (pvs : List (AssetParams × ℚ)) :
    List (AssetParams × ℚ) :=
  pvs.mapIdx (fun i pv => (pv.1, stepPosition sqrt12 pv.1 pv.2 (zm i)))

/-- The `positionValues` state of `runSimulationPath` after `m` monthly steps
(`z month i` is the standard-normal draw for position `i` in month `month`). -/
def simVals (sqrt12 : ℚ) (z : ℕ → ℕ → ℚ) (pvs0 : List (AssetParams × ℚ)) :
    ℕ → List (AssetParams × ℚ)
  | 0 => pvs0
  | m + 1 => simStep sqrt12 (z (m + 1)) (simVals sqrt12 z pvs0 m)

/-- The initial per-position simulation state of `runSimulationPath`: each
position's asset parameters (default bucket for unrecognized symbols) paired
with its current value. -/
def initialPositionValues (positions : List SimPosition) :
    List (AssetParams × ℚ) :=
  positions.map (fun p => (assetParamsFor p.symbol, p.value))

/-- `runSimulationPath`: the path starts at month 0 with the sum of the
positions' current values, and records at each month `1..years*12` the sum of
the running position values after that month's updates. -/
def runSimulationPath (sqrt12 : ℚ) (z : ℕ → ℕ → ℚ)
    (positions : List SimPosition) (years : ℕ) : List PathPoint :=
  let monthly := years * 12
  let pvs0 := initialPositionValues positions
  (List.range (monthly + 1)).map (fun month =>
    if month = 0 then ⟨0, (positions.map SimPosition.value).sum⟩
    else ⟨month, ((simVals sqrt12 z pvs0 month).map Prod.snd).sum⟩)

/-- The `allPaths` collection of `runMonteCarlo`: `simulations` independent
paths (`z i` is the draw stream of run `i`). -/
def monteCarloPaths (sqrt12 : ℚ) (z : ℕ → ℕ → ℕ → ℚ)
    (positions : List SimPosition) (simulations years : ℕ) :
    List (List PathPoint) :=
  (List.range simulations).map (fun i =>
    runSimulationPath sqrt12 (z i) positions years)

/-- Per-month aggregate statistics record of `runMonteCarlo`
(`{month, mean, median, min, max, p5, p25, p50, p75, p95}`; the percentile
entries are modelled as `(fraction, value)` pairs, keyed by the configured
confidence fractions). -/
structure MonthStats where
  month : ℕ
  mean : ℚ
  median : ℚ
  min : ℚ
  max : ℚ
  percentiles : List (ℚ × ℚ)
deriving DecidableEq, Repr

/-- The ascending comparison used to model
`values.sort((a, b) => a - b)`. -/
def ratLE (a b : ℚ) : Bool := decide (a ≤ b)

/-- The nearest-rank percentile of `runMonteCarlo`: the ascending-sorted
values at index `⌊pct * N⌋` (no interpolation). -/
def percentileValue (values : List ℚ) (pct : ℚ) : ℚ :=
  (values.mergeSort ratLE).getD ⌊pct * (values.length : ℚ)⌋₊ 0

/-- The per-month statistics computation of `runMonteCarlo`: sort the month's
values ascending, then read off mean, the median at index `⌊N/2⌋`, min, max,
and the nearest-rank percentile for each configured confidence fraction. -/
def monthStatsOf (confidence : List ℚ) (month : ℕ) (values : List ℚ) :
    MonthStats :=
  let sorted := values.mergeSort ratLE
  { month := month
    mean := values.sum / (values.length : ℚ)
    median := sorted.getD (values.length / 2) 0
    min := sorted.getD 0 0
    max := sorted.getD (values.length - 1) 0
    percentiles := confidence.map (fun pct =>
      (pct, sorted.getD ⌊pct * (values.length : ℚ)⌋₊ 0)) }

/-- The default percentile bands (`DEFAULT_PARAMS.confidence`). -/
def defaultConfidence : List ℚ := [0.05, 0.25, 0.50, 0.75, 0.95]

/-- The `statistics` array of `runMonteCarlo`: for each month `0..years*12`,
the aggregate statistics of that month's value across all paths. -/
def monteCarloStatistics (confidence : List ℚ) (paths : List (List PathPoint))
    (years : ℕ) : List MonthStats :=
  (List.range (years * 12 + 1)).map (fun month =>
    monthStatsOf confidence month
      (paths.map (fun p => (p.getD month default).value)))

/-- JavaScript falsiness of an optional price (`!btcPrice`): missing or
zero. -/
def jsFalsy (price : Option ℚ) : Bool :=
  match price with
  | none => true
  | some v => decide (v = 0)

/-- The successful result record of `calculateMnav` (mnav.js). The source
formats `mnav` with `toFixed(2)`; it is modelled as the exact ratio. -/
structure MnavResult where
  mnav : ℚ
  mstrMarketCap : ℚ
  btcHoldingsValue : ℚ
  btcPrice : ℚ
  mstrPrice : ℚ
  btcHoldings : ℚ
  sharesOutstanding : ℚ
  status : String
deriving DecidableEq, Repr

/-- `calcMstrMarketCap` (prices.js). -/
def calcMstrMarketCap (price sharesOutstanding : ℚ) : ℚ :=
  price * sharesOutstanding

/-- `calcBtcHoldingsValue` (prices.js). -/
def calcBtcHoldingsValue (btcPrice btcHoldings : ℚ) : ℚ :=
  btcPrice * btcHoldings

/-- `calculateMnav` (mnav.js), with the fetched prices and the configuration
data as explicit inputs: when either price is missing the result is the error
`"Failed to fetch prices"`; otherwise mNAV is the MSTR market cap divided by
the BTC holdings value, with the threshold status label. -/
def calculateMnav (btcPrice mstrPrice : Option ℚ)
    (sharesOutstanding btcHoldings : ℚ) (mnavHigh mnavLow : ℚ) :
    Except String MnavResult :=
  if jsFalsy btcPrice || jsFalsy mstrPrice then
    Except.error "Failed to fetch prices"
  else
    let btc := btcPrice.getD 0
    let mstr := mstrPrice.getD 0
    let mstrMarketCap := calcMstrMarketCap mstr sharesOutstanding
    let btcHoldingsValue := calcBtcHoldingsValue btc btcHoldings
    let mnav := mstrMarketCap / btcHoldingsValue
    let status :=
      if mnav > mnavHigh then "OVERVALUED"
      else if mnav < mnavLow then "UNDERVALUED"
      else "NORMAL"
    Except.ok
      { mnav := mnav
        mstrMarketCap := mstrMarketCap
        btcHoldingsValue := btcHoldingsValue
        btcPrice := btc
        mstrPrice := mstr
        btcHoldings := btcHoldings
        sharesOutstanding := sharesOutstanding
        status := status }

/-- A configured holding `{symbol, quantity, targetAllocation}`. -/
structure Holding where
  symbol : String
  quantity : ℚ
  targetAllocation : ℚ
deriving DecidableEq, Repr

/-- Modelled from the spec: `calculatePortfolio` lives in `portfolio.js`,
which is not among the provided sources (only its callers are). Per spec
§4.1, the Position Valuator fails with an error result naming the missing
symbols when the BTC or MSTR price is unavailable; otherwise each position
gets `value = price * quantity` (0 if the price is missing),
`actualAllocation = value / totalValue` (0 when `totalValue` is 0),
`drift = actualAllocation - targetAllocation`, and
`needsRebalance = |drift| > rebalanceTrigger`. -/
def calculatePortfolio (holdings : List Holding) (prices : String → Option ℚ)
    (rebalanceTrigger : ℚ) : Except String Portfolio :=
  let missing := ["BTC", "MSTR"].filter (fun s => (prices s).isNone)
  if missing.isEmpty then
    let totalValue := (holdings.map (fun h => ((prices h.symbol).getD 0) * h.quantity)).sum
    let positions := holdings.map (fun h =>
      let price := (prices h.symbol).getD 0
      let value := price * h.quantity
      let actual := if totalValue > 0 then value / totalValue else 0
      let drift := actual - h.targetAllocation
      { symbol := h.symbol
        quantity := h.quantity
        price := price
        value := value
        targetAllocation := h.targetAllocation
        actualAllocation := actual
        drift := drift
        needsRebalance := decide (|drift| > rebalanceTrigger) : Position })
    Except.ok { totalValue := totalValue, positions := positions }
  else
    Except.error ("Missing price data: " ++ String.intercalate ", " missing)

section Theorems

attribute [local semireducible] Rat.add Rat.mul Rat.inv Rat.sub Rat.ofScientific

/-- Bridge from `getD` at an in-bounds index to `getElem`. -/
theorem getD_of_lt (l : List α) (d : α) {i : ℕ} (h : i < l.length) :
    l.getD i d = l[i] := by
  simp [List.getD_eq_getElem?_getD, List.getElem?_eq_getElem h]

/-- `ratLE` is transitive. -/
theorem ratLE_trans (a b c : ℚ) : ratLE a b → ratLE b c → ratLE a c := by
  simp only [ratLE, decide_eq_true_eq]
  exact le_trans

/-- `ratLE` is total. -/
theorem ratLE_total (a b : ℚ) : ratLE a b || ratLE b a := by
  simpa [ratLE] using le_total a b

/-- The sort used on month values produces an ascending list. -/
theorem sorted_mergeSort_ratLE (values : List ℚ) :
    (values.mergeSort ratLE).Sorted (· ≤ ·) := by
  have h := List.sorted_mergeSort ratLE_trans ratLE_total values
  exact h.imp fun hab => by simpa [ratLE] using hab

/-- `recoLE` is transitive. -/
theorem recoLE_trans (a b c : Recommendation) :
    recoLE a b → recoLE b c → recoLE a c := by
  simp only [recoLE]
  by_cases h1 : a.priority = b.priority <;> by_cases h2 : b.priority = c.priority
  · rw [if_pos h1, if_pos h2, if_pos (h1.trans h2)]
    simp only [decide_eq_true_eq]
    exact fun hab hbc => le_trans hbc hab
  · rw [if_pos h1, if_neg h2, if_neg (h1 ▸ h2)]
    intro _ hb
    simpa [h1] using hb
  · rw [if_neg h1, if_pos h2, if_neg (h2 ▸ h1)]
    intro ha _
    exact ha
  · rw [if_neg h1, if_neg h2]
    intro ha hb
    simp only [decide_eq_true_eq] at ha hb
    exact absurd (ha.trans hb.symm) h1

/-- `recoLE` is total. -/
theorem recoLE_total (a b : Recommendation) : recoLE a b || recoLE b a := by
  simp only [recoLE]
  by_cases h : a.priority = b.priority
  · rw [if_pos h, if_pos h.symm]
    simpa using le_total b.difference a.difference
  · rw [if_neg h, if_neg (Ne.symm h)]
    cases ha : a.priority <;> cases hb : b.priority <;> simp_all

/-- **C7**: the drift-trend query reports `insufficient_data` (not an
exception) when fewer than 2 points fall in the window; with at least 2
points it reports the change `latest - earliest` classified as stable when
`|change| < 0.01`, else increasing when positive, else decreasing; and the
drift values `[0.05, 0.05]` yield `stable`. -/
theorem driftTrend_classification (history : List Snapshot) (symbol : String)
    (cutoff : ℤ) :
    ((relevantDriftPoints history symbol cutoff).length < 2 →
      getDriftTrend history symbol cutoff =
        TrendResult.insufficientData (relevantDriftPoints history symbol cutoff).length) ∧
    (∀ first last : ℚ,
      2 ≤ (relevantDriftPoints history symbol cutoff).length →
      first = ((relevantDriftPoints history symbol cutoff).getD 0 (0, 0)).2 →
      last = ((relevantDriftPoints history symbol cutoff).getD
        ((relevantDriftPoints history symbol cutoff).length - 1) (0, 0)).2 →
      getDriftTrend history symbol cutoff =
        TrendResult.computed
          (if |last - first| < 0.01 then "stable"
           else if last - first > 0 then "increasing" else "decreasing")
          (last - first) (relevantDriftPoints history symbol cutoff).length
          first last) ∧
    getDriftTrend
        [⟨1, [⟨"BTC", 0, 0, 0.05, 0⟩]⟩, ⟨2, [⟨"BTC", 0, 0, 0.05, 0⟩]⟩]
        "BTC" 0 =
      TrendResult.computed "stable" 0 2 0.05 0.05 := by
  refine ⟨?_, ?_, ?_⟩
  · intro h
    simp only [getDriftTrend]
    rw [if_pos h]
  · intro first last h hf hl
    simp only [getDriftTrend]
    rw [if_neg (by omega)]
    rw [hf, hl]
  · decide

/-- Witness for `driftTrend_classification`, instantiating both branches on
concrete histories. -/
theorem driftTrend_classification_wit :
    getDriftTrend [⟨1, [⟨"BTC", 0, 0, 0.05, 0⟩]⟩] "BTC" 0 =
      TrendResult.insufficientData 1 ∧
    getDriftTrend
        [⟨1, [⟨"BTC", 0, 0, 0.03, 0⟩]⟩, ⟨2, [⟨"BTC", 0, 0, 0.09, 0⟩]⟩]
        "BTC" 0 =
      TrendResult.computed "increasing" 0.06 2 0.03 0.09 := by
  constructor
  · exact (driftTrend_classification [⟨1, [⟨"BTC", 0, 0, 0.05, 0⟩]⟩] "BTC" 0).1
      (by decide)
  · have h := (driftTrend_classification
      [⟨1, [⟨"BTC", 0, 0, 0.03, 0⟩]⟩, ⟨2, [⟨"BTC", 0, 0, 0.09, 0⟩]⟩] "BTC" 0).2.1
      0.03 0.09 (by decide) (by decide) (by decide)
    rw [h]
    decide

/-- **C8**: the Rebalance Planner's output list is ordered so that every
HIGH-priority entry precedes every MEDIUM-priority entry, and within a
priority tier the absolute dollar `difference` is non-increasing. -/
theorem rebalance_output_sorted (portfolio : Portfolio) :
    (getRebalanceRecommendation portfolio).Pairwise (fun a b =>
      (b.priority = RecoPriority.high → a.priority = RecoPriority.high) ∧
      (a.priority = b.priority → b.difference ≤ a.difference)) := by
  have h := List.sorted_mergeSort recoLE_trans recoLE_total
    ((portfolio.positions.filter (fun p => p.needsRebalance)).map
      (mkRecommendation portfolio.totalValue))
  refine h.imp fun {a b} hab => ?_
  constructor
  · intro hb
    by_cases hp : a.priority = b.priority
    · rw [hp]; exact hb
    · simp only [recoLE, if_neg hp, decide_eq_true_eq] at hab
      exact hab
  · intro hp
    simp only [recoLE, if_pos hp, decide_eq_true_eq] at hab
    exact hab

/-- **C9**: the Rebalance Planner emits one recommendation per position with
`needsRebalance = true` (and no others), carrying
`targetValue = totalValue * targetAllocation`, BUY when the delta is
positive else SELL, `shares = |delta| / price` guarded to 0 on a
non-positive price, and HIGH priority exactly when `|drift| > 0.10`. -/
theorem rebalance_output_contents (portfolio : Portfolio) :
    (getRebalanceRecommendation portfolio).Perm
      ((portfolio.positions.filter (fun p => p.needsRebalance)).map (fun p =>
        { symbol := p.symbol
          action := if portfolio.totalValue * p.targetAllocation - p.value > (0 : ℚ)
            then TradeAction.buy else TradeAction.sell
          currentValue := p.value
          targetValue := portfolio.totalValue * p.targetAllocation
          difference := |portfolio.totalValue * p.targetAllocation - p.value|
          shares := if p.price > (0 : ℚ)
            then |portfolio.totalValue * p.targetAllocation - p.value| / p.price
            else 0
          priority := if |p.drift| > (0.10 : ℚ)
            then RecoPriority.high else RecoPriority.medium })) := by
  have hperm := List.mergeSort_perm
    ((portfolio.positions.filter (fun p => p.needsRebalance)).map
      (mkRecommendation portfolio.totalValue)) recoLE
  refine hperm.trans ?_
  have hfun : ∀ p : Position, mkRecommendation portfolio.totalValue p =
      ({ symbol := p.symbol
         action := if portfolio.totalValue * p.targetAllocation - p.value > (0 : ℚ)
           then TradeAction.buy else TradeAction.sell
         currentValue := p.value
         targetValue := portfolio.totalValue * p.targetAllocation
         difference := |portfolio.totalValue * p.targetAllocation - p.value|
         shares := if p.price > (0 : ℚ)
           then |portfolio.totalValue * p.targetAllocation - p.value| / p.price
           else 0
         priority := if |p.drift| > (0.10 : ℚ)
           then RecoPriority.high else RecoPriority.medium } : Recommendation) := by
    intro p
    have hshares :
        (if p.price > (0 : ℚ)
          then |(portfolio.totalValue * p.targetAllocation - p.value) / p.price|
          else 0) =
        (if p.price > (0 : ℚ)
          then |portfolio.totalValue * p.targetAllocation - p.value| / p.price
          else 0) := by
      by_cases hp : p.price > (0 : ℚ)
      · rw [if_pos hp, if_pos hp, abs_div, abs_of_pos hp]
      · rw [if_neg hp, if_neg hp]
    simp [mkRecommendation, hshares]
  rw [List.map_congr_left fun p _ => hfun p]

/-- Stepping a month keeps the number of tracked positions. -/
theorem length_simVals (sqrt12 : ℚ) (z : ℕ → ℕ → ℚ)
    (pvs0 : List (AssetParams × ℚ)) :
    ∀ m, (simVals sqrt12 z pvs0 m).length = pvs0.length
  | 0 => rfl
  | m + 1 => by
    simp [simVals, simStep, length_simVals sqrt12 z pvs0 m]

/-- Stepping a month never changes a position's asset parameters. -/
theorem simVals_fst (sqrt12 : ℚ) (z : ℕ → ℕ → ℚ)
    (pvs0 : List (AssetParams × ℚ)) (m i : ℕ) (hi : i < pvs0.length) :
    ((simVals sqrt12 z pvs0 m).getD i default).1 = (pvs0.getD i default).1 := by
  induction m with
  | zero => rfl
  | succ m ih =>
    have hm : i < (simVals sqrt12 z pvs0 m).length := by
      rw [length_simVals]; exact hi
    have hm1 : i < (simVals sqrt12 z pvs0 (m + 1)).length := by
      rw [length_simVals]; exact hi
    rw [getD_of_lt _ _ hm1]
    rw [getD_of_lt _ _ hm] at ih
    have hstep : simVals sqrt12 z pvs0 (m + 1) =
        simStep sqrt12 (z (m + 1)) (simVals sqrt12 z pvs0 m) := rfl
    simp only [hstep, simStep] at hm1 ⊢
    rw [List.getElem_mapIdx]
    exact ih

/-- The asset parameters tracked for position `i` are those of its symbol. -/
theorem initialPositionValues_fst (positions : List SimPosition) (i : ℕ)
    (hi : i < positions.length) :
    ((initialPositionValues positions).getD i default).1 =
      assetParamsFor ((positions.getD i default).symbol) := by
  have hi' : i < (initialPositionValues positions).length := by
    simp [initialPositionValues]; exact hi
  rw [getD_of_lt _ _ hi', getD_of_lt _ _ hi]
  simp [initialPositionValues]

/-- **C1**: at every month step `1..years*12` and for every position, the
position's running value is multiplied by `1 + effectiveReturn`, where the
effective monthly return is `meanReturn/12 + (volatility/√12)·z` floored at
`minReturn/12`, with the asset parameters looked up by symbol (the default
bucket for unrecognized symbols) and `z` the standard-normal draw for that
position and month. -/
theorem applied_monthly_return (sqrt12 : ℚ) (z : ℕ → ℕ → ℚ)
    (positions : List SimPosition) (years m i : ℕ)
    (h1 : 1 ≤ m) (h2 : m ≤ years * 12) (hi : i < positions.length) :
    ((simVals sqrt12 z (initialPositionValues positions) m).getD i default).2 =
      ((simVals sqrt12 z (initialPositionValues positions) (m - 1)).getD i default).2 *
        (1 + max
          ((assetParamsFor ((positions.getD i default).symbol)).meanReturn / 12 +
            (assetParamsFor ((positions.getD i default).symbol)).volatility / sqrt12 * z m i)
          ((assetParamsFor ((positions.getD i default).symbol)).minReturn / 12)) := by
  obtain ⟨k, rfl⟩ : ∃ k, m = k + 1 := ⟨m - 1, (Nat.succ_pred_eq_of_pos h1).symm⟩
  simp only [Nat.add_sub_cancel]
  have hp0 : (initialPositionValues positions).length = positions.length := by
    simp [initialPositionValues]
  have hk : i < (simVals sqrt12 z (initialPositionValues positions) k).length := by
    rw [length_simVals, hp0]; exact hi
  have hk1 : i < (simVals sqrt12 z (initialPositionValues positions) (k + 1)).length := by
    rw [length_simVals, hp0]; exact hi
  have hfst := simVals_fst sqrt12 z (initialPositionValues positions) k i
    (by rw [hp0]; exact hi)
  rw [initialPositionValues_fst positions i hi] at hfst
  rw [getD_of_lt _ _ hk1, getD_of_lt _ _ hk]
  rw [getD_of_lt _ _ hk] at hfst
  have hstep : simVals sqrt12 z (initialPositionValues positions) (k + 1) =
      simStep sqrt12 (z (k + 1)) (simVals sqrt12 z (initialPositionValues positions) k) :=
    rfl
  simp only [hstep, simStep] at hk1 ⊢
  rw [List.getElem_mapIdx]
  rw [stepPosition, hfst]

/-- Witness for `applied_monthly_return`: a single BTC position of value 120,
draw 1, with the square-root parameter set to 4, gives
`120 * (1 + max (0.40/12 + (0.80/4)·1) (-0.80/12)) = 148` after month 1. -/
theorem applied_monthly_return_wit :
    ((simVals 4 (fun _ _ => 1) (initialPositionValues [⟨"BTC", 120⟩]) 1).getD 0 default).2 =
      ((simVals 4 (fun _ _ => 1) (initialPositionValues [⟨"BTC", 120⟩]) 0).getD 0 default).2 *
        (1 + max
          ((assetParamsFor ((([⟨"BTC", 120⟩] : List SimPosition).getD 0 default).symbol)).meanReturn / 12 +
            (assetParamsFor ((([⟨"BTC", 120⟩] : List SimPosition).getD 0 default).symbol)).volatility / 4 * 1)
          ((assetParamsFor ((([⟨"BTC", 120⟩] : List SimPosition).getD 0 default).symbol)).minReturn / 12)) :=
  applied_monthly_return 4 (fun _ _ => 1) [⟨"BTC", 120⟩] 1 1 0
    (by decide) (by decide) (by decide)

/-- **C2**: every simulation path has length `years*12 + 1`, its entry at
index `m` carries `month = m`, its month-0 value is the sum of the positions'
current values, and for `simulations = 1`, `years = 0` the Monte-Carlo path
collection is a single path with exactly one point at the initial total
value. -/
theorem simulation_path_shape (sqrt12 : ℚ) (z : ℕ → ℕ → ℚ)
    (zz : ℕ → ℕ → ℕ → ℚ) (positions : List SimPosition) (years : ℕ) :
    (runSimulationPath sqrt12 z positions years).length = years * 12 + 1 ∧
    (∀ m, m < years * 12 + 1 →
      ((runSimulationPath sqrt12 z positions years).getD m default).month = m) ∧
    ((runSimulationPath sqrt12 z positions years).getD 0 default).value =
      (positions.map SimPosition.value).sum ∧
    monteCarloPaths sqrt12 zz positions 1 0 =
      [[⟨0, (positions.map SimPosition.value).sum⟩]] := by
  have hlen : (runSimulationPath sqrt12 z positions years).length = years * 12 + 1 := by
    simp [runSimulationPath]
  refine ⟨hlen, ?_, ?_, ?_⟩
  · intro m hm
    rw [getD_of_lt _ _ (by rw [hlen]; exact hm)]
    simp only [runSimulationPath, List.getElem_map, List.getElem_range]
    by_cases hm0 : m = 0 <;> simp [hm0]
  · rw [getD_of_lt _ _ (by rw [hlen]; omega)]
    simp [runSimulationPath]
  · simp [monteCarloPaths, runSimulationPath, List.range_succ]

/-- Witness for `simulation_path_shape`: the inner quantifier instantiated at
month 0 for a concrete two-position portfolio over one year. -/
theorem simulation_path_shape_wit :
    (runSimulationPath 4 (fun _ _ => 0) [⟨"BTC", 5⟩, ⟨"X", 7⟩] 1).length = 13 ∧
    ((runSimulationPath 4 (fun _ _ => 0) [⟨"BTC", 5⟩, ⟨"X", 7⟩] 1).getD 3 default).month = 3 ∧
    monteCarloPaths 4 (fun _ _ _ => 0) [⟨"BTC", 5⟩, ⟨"X", 7⟩] 1 0 = [[⟨0, 12⟩]] := by
  have h := simulation_path_shape 4 (fun _ _ => 0) (fun _ _ _ => 0)
    [⟨"BTC", 5⟩, ⟨"X", 7⟩] 1
  refine ⟨h.1, h.2.1 3 (by decide), ?_⟩
  rw [h.2.2.2]
  norm_num

/-- The sort in the Projection Aggregator is the unique ascending arrangement
of the month's values. -/
theorem mergeSort_eq_of_sorted_perm (values s : List ℚ) (hperm : s.Perm values)
    (hsort : s.Sorted (· ≤ ·)) : values.mergeSort ratLE = s :=
  List.eq_of_perm_of_sorted ((List.mergeSort_perm values ratLE).trans hperm.symm)
    (sorted_mergeSort_ratLE values) hsort

/-- **C3 (amended)**: for every month's values over the paths, the Projection
Aggregator's percentile at fraction `p` is the ascending-sorted values at
index `⌊p * N⌋` (nearest rank, no interpolation), and the median is the
sorted value at index `⌊N / 2⌋` — for even `N` the upper-middle element, not
the lower-middle one and not an average. -/
theorem stats_percentiles_median (confidence : List ℚ) (values : List ℚ)
    (m : ℕ) (s : List ℚ) (hperm : s.Perm values) (hsort : s.Sorted (· ≤ ·)) :
    (monthStatsOf confidence m values).percentiles =
      confidence.map (fun pct => (pct, s.getD ⌊pct * (values.length : ℚ)⌋₊ 0)) ∧
    (monthStatsOf confidence m values).median = s.getD (values.length / 2) 0 := by
  have hms : values.mergeSort ratLE = s :=
    mergeSort_eq_of_sorted_perm values s hperm hsort
  constructor <;> simp [monthStatsOf, hms]

/-- Witness for `stats_percentiles_median` on the values `[3, 1, 2]` with the
sorted arrangement `[1, 2, 3]`. -/
theorem stats_percentiles_median_wit :
    ([1, 2, 3] : List ℚ).Perm [3, 1, 2] ∧
    ((monthStatsOf defaultConfidence 0 [3, 1, 2]).percentiles =
      defaultConfidence.map (fun pct =>
        (pct, ([1, 2, 3] : List ℚ).getD ⌊pct * ((([3, 1, 2] : List ℚ)).length : ℚ)⌋₊ 0)) ∧
     (monthStatsOf defaultConfidence 0 [3, 1, 2]).median =
      ([1, 2, 3] : List ℚ).getD (([3, 1, 2] : List ℚ).length / 2) 0) :=
  ⟨by decide, stats_percentiles_median defaultConfidence [3, 1, 2] 0 [1, 2, 3]
    (by decide) (by decide)⟩

/-- **C3 counterexample**: on the already-sorted even-length month values
`[1, 2, 3, 4]` the aggregator's median is `3`, the upper-middle element at
sorted index `N/2 = 2`; it differs from the lower-middle element `2` at
sorted index `N/2 - 1`, so the median is not the lower-middle element. -/
theorem median_not_lower_middle :
    (monthStatsOf defaultConfidence 0 [1, 2, 3, 4]).median = 3 ∧
    ([1, 2, 3, 4] : List ℚ).mergeSort ratLE = [1, 2, 3, 4] ∧
    (monthStatsOf defaultConfidence 0 [1, 2, 3, 4]).median ≠
      (([1, 2, 3, 4] : List ℚ).mergeSort ratLE).getD
        (([1, 2, 3, 4] : List ℚ).length / 2 - 1) 0 := by
  have hm : ([1, 2, 3, 4] : List ℚ).mergeSort ratLE = [1, 2, 3, 4] :=
    List.mergeSort_of_sorted (by decide)
  refine ⟨?_, hm, ?_⟩
  · simp [monthStatsOf, hm]
  · norm_num [monthStatsOf, hm]

/-- Adjacent reads of an ascending list respect index order. -/
theorem sorted_getD_mono (l : List ℚ) (hs : l.Sorted (· ≤ ·)) {i j : ℕ}
    (hij : i ≤ j) (hj : j < l.length) : l.getD i 0 ≤ l.getD j 0 := by
  have hi : i < l.length := Nat.lt_of_le_of_lt hij hj
  rw [getD_of_lt _ _ hi, getD_of_lt _ _ hj]
  have h := hs.rel_get_of_le (Fin.mk_le_mk.mpr hij : (⟨i, hi⟩ : Fin l.length) ≤ ⟨j, hj⟩)
  simpa using h

/-- **C4**: every per-month statistics record over a non-empty set of paths
has monotone percentile bands: `min ≤ p5 ≤ p25 ≤ p50 ≤ p75 ≤ p95 ≤ max`. -/
theorem monthly_percentile_bands (paths : List (List PathPoint)) (years : ℕ)
    (hne : paths ≠ []) (s : MonthStats)
    (hs : s ∈ monteCarloStatistics defaultConfidence paths years) :
    ∃ v5 v25 v50 v75 v95 : ℚ,
      s.percentiles = [(0.05, v5), (0.25, v25), (0.50, v50), (0.75, v75), (0.95, v95)] ∧
      s.min ≤ v5 ∧ v5 ≤ v25 ∧ v25 ≤ v50 ∧ v50 ≤ v75 ∧ v75 ≤ v95 ∧ v95 ≤ s.max := by
  simp only [monteCarloStatistics, List.mem_map] at hs
  obtain ⟨month, _, rfl⟩ := hs
  set values := paths.map (fun p => (p.getD month default).value) with hv
  have hvne : values ≠ [] := by
    simp only [hv, ne_eq, List.map_eq_nil_iff]
    exact hne
  have hn : 0 < values.length := List.length_pos.mpr hvne
  have hnq : (0 : ℚ) < (values.length : ℚ) := by exact_mod_cast hn
  have hsorted : (values.mergeSort ratLE).Sorted (· ≤ ·) := sorted_mergeSort_ratLE values
  have hslen : (values.mergeSort ratLE).length = values.length := by simp
  have hidx95 : ⌊(0.95 : ℚ) * (values.length : ℚ)⌋₊ < values.length := by
    rw [Nat.floor_lt (by positivity)]
    calc (0.95 : ℚ) * (values.length : ℚ) < 1 * (values.length : ℚ) :=
          mul_lt_mul_of_pos_right (by norm_num) hnq
      _ = (values.length : ℚ) := one_mul _
  have hmono : ∀ p q : ℚ, p ≤ q →
      ⌊p * (values.length : ℚ)⌋₊ ≤ ⌊q * (values.length : ℚ)⌋₊ := fun p q hpq =>
    Nat.floor_le_floor (mul_le_mul_of_nonneg_right hpq (le_of_lt hnq))
  have hlt : ∀ p : ℚ, p ≤ 0.95 →
      ⌊p * (values.length : ℚ)⌋₊ < (values.mergeSort ratLE).length := fun p hp => by
    rw [hslen]
    exact Nat.lt_of_le_of_lt (hmono p 0.95 hp) hidx95
  refine ⟨(values.mergeSort ratLE).getD ⌊(0.05 : ℚ) * (values.length : ℚ)⌋₊ 0,
    (values.mergeSort ratLE).getD ⌊(0.25 : ℚ) * (values.length : ℚ)⌋₊ 0,
    (values.mergeSort ratLE).getD ⌊(0.50 : ℚ) * (values.length : ℚ)⌋₊ 0,
    (values.mergeSort ratLE).getD ⌊(0.75 : ℚ) * (values.length : ℚ)⌋₊ 0,
    (values.mergeSort ratLE).getD ⌊(0.95 : ℚ) * (values.length : ℚ)⌋₊ 0,
    ?_, ?_, ?_, ?_, ?_, ?_, ?_⟩
  · simp [monthStatsOf, defaultConfidence]
  · exact sorted_getD_mono _ hsorted (Nat.zero_le _) (hlt 0.05 (by norm_num))
  · exact sorted_getD_mono _ hsorted (hmono 0.05 0.25 (by norm_num)) (hlt 0.25 (by norm_num))
  · exact sorted_getD_mono _ hsorted (hmono 0.25 0.50 (by norm_num)) (hlt 0.50 (by norm_num))
  · exact sorted_getD_mono _ hsorted (hmono 0.50 0.75 (by norm_num)) (hlt 0.75 (by norm_num))
  · exact sorted_getD_mono _ hsorted (hmono 0.75 0.95 (by norm_num)) (hlt 0.95 (by norm_num))
  · refine sorted_getD_mono _ hsorted ?_ ?_
    · rw [hslen] at hlt
      exact Nat.le_sub_one_of_lt (hlt 0.95 le_rfl)
    · rw [hslen]
      omega

/-- Witness for `monthly_percentile_bands` on a single one-point path. -/
theorem monthly_percentile_bands_wit :
    ∃ v5 v25 v50 v75 v95 : ℚ,
      (monthStatsOf defaultConfidence 0 [(5 : ℚ)]).percentiles =
        [(0.05, v5), (0.25, v25), (0.50, v50), (0.75, v75), (0.95, v95)] ∧
      (monthStatsOf defaultConfidence 0 [(5 : ℚ)]).min ≤ v5 ∧ v5 ≤ v25 ∧
        v25 ≤ v50 ∧ v50 ≤ v75 ∧ v75 ≤ v95 ∧
        v95 ≤ (monthStatsOf defaultConfidence 0 [(5 : ℚ)]).max :=
  monthly_percentile_bands [[⟨0, 5⟩]] 0 (by decide)
    (monthStatsOf defaultConfidence 0 [(5 : ℚ)])
    (by simp [monteCarloStatistics, List.range_succ])

/-- Dropping at most `l1.length` elements from `l1 ++ l2` keeps all of
`l2`. -/
theorem mem_drop_append (l1 l2 : List α) (a : α) (k : ℕ) (hk : k ≤ l1.length)
    (ha : a ∈ l2) : a ∈ (l1 ++ l2).drop k := by
  induction l1 generalizing k with
  | nil =>
    have : k = 0 := Nat.le_zero.mp hk
    subst this
    simpa using ha
  | cons x xs ih =>
    cases k with
    | zero => simp [ha]
    | succ j =>
      simp only [List.cons_append, List.drop_succ_cons]
      exact ih j (Nat.le_of_succ_le_succ hk)

/-- Trimming `store ++ batch` to its last 100 entries keeps every batch entry
as long as the batch has at most 100 entries. -/
theorem mem_takeLast_append (store batch : List StoredAlert) (a : StoredAlert)
    (ha : a ∈ batch) (hb : batch.length ≤ 100) :
    a ∈ takeLast 100 (store ++ batch) := by
  unfold takeLast
  apply mem_drop_append _ _ _ _ _ ha
  simp only [List.length_append]
  omega

/-- **C5**: a position whose drift keeps the same severity across two
consecutive checks within the cooldown window yields exactly one alert: the
first check (with no matching recent alert on record) emits it, and the
second check, run less than `cooldown` minutes later, emits nothing because
the stored alert with the same symbol and severity suppresses it. -/
theorem cooldown_suppresses_second_alert (cfg : AlertConfig) (p q : Position)
    (sev : Severity) (tv1 tv2 : ℚ) (store0 : List StoredAlert)
    (hist0 hist1 : List Snapshot) (t1 t2 : ℤ)
    (hsev1 : severityFor cfg p.drift = some sev)
    (hsev2 : severityFor cfg q.drift = some sev)
    (hsym : q.symbol = p.symbol)
    (hfresh : store0.find? (isRecentSame cfg t1 p.symbol sev) = none)
    (hcd : ((t2 - t1 : ℤ) : ℚ) < cfg.cooldown * 60 * 1000) :
    (checkDriftAlerts cfg (Except.ok ⟨tv1, [p]⟩) store0 hist0 t1).1.alerts =
      [mkAlert p sev t1] ∧
    (checkDriftAlerts cfg (Except.ok ⟨tv2, [q]⟩)
        (checkDriftAlerts cfg (Except.ok ⟨tv1, [p]⟩) store0 hist0 t1).2.1
        hist1 t2).1.alerts = [] := by
  have halerts1 : driftAlertsFor cfg [p] store0 t1 = [mkAlert p sev t1] := by
    simp [driftAlertsFor, hsev1, hfresh]
  have hstore1 : (checkDriftAlerts cfg (Except.ok ⟨tv1, [p]⟩) store0 hist0 t1).2.1 =
      takeLast 100 (store0 ++ [mkAlert p sev t1]) := by
    simp [checkDriftAlerts, halerts1]
  refine ⟨by simp [checkDriftAlerts, halerts1], ?_⟩
  rw [hstore1]
  have hmem : mkAlert p sev t1 ∈ takeLast 100 (store0 ++ [mkAlert p sev t1]) :=
    mem_takeLast_append store0 [mkAlert p sev t1] _ (by simp) (by simp)
  have hcd' : ((t2 : ℚ) - (t1 : ℚ)) < cfg.cooldown * 60 * 1000 := by
    push_cast at hcd
    exact hcd
  have hpred : isRecentSame cfg t2 q.symbol sev (mkAlert p sev t1) = true := by
    simp [isRecentSame, mkAlert, hsym, hcd']
  have hfind : (takeLast 100 (store0 ++ [mkAlert p sev t1])).find?
      (isRecentSame cfg t2 q.symbol sev) ≠ none := by
    intro hnone
    rw [List.find?_eq_none] at hnone
    exact hnone _ hmem hpred
  rcases hf : (takeLast 100 (store0 ++ [mkAlert p sev t1])).find?
      (isRecentSame cfg t2 q.symbol sev) with _ | a
  · exact absurd hf hfind
  · simp [checkDriftAlerts, driftAlertsFor, hsev2, hf]

/-- Witness for `cooldown_suppresses_second_alert`: a 40%-drifted BTC
position checked at `t = 0` and again at `t = 1000 ms`, cooldown 240 min. -/
theorem cooldown_suppresses_second_alert_wit :
    (checkDriftAlerts ⟨0.05, 0.10, 240⟩
      (Except.ok ⟨100, [⟨"BTC", 1, 1, 100, 0.5, 0.9, 0.4, true⟩]⟩) [] [] 0).1.alerts =
      [mkAlert ⟨"BTC", 1, 1, 100, 0.5, 0.9, 0.4, true⟩ Severity.critical 0] ∧
    (checkDriftAlerts ⟨0.05, 0.10, 240⟩
      (Except.ok ⟨100, [⟨"BTC", 1, 1, 100, 0.5, 0.9, 0.4, true⟩]⟩)
      (checkDriftAlerts ⟨0.05, 0.10, 240⟩
        (Except.ok ⟨100, [⟨"BTC", 1, 1, 100, 0.5, 0.9, 0.4, true⟩]⟩) [] [] 0).2.1
      [] 1000).1.alerts = [] :=
  cooldown_suppresses_second_alert ⟨0.05, 0.10, 240⟩
    ⟨"BTC", 1, 1, 100, 0.5, 0.9, 0.4, true⟩ ⟨"BTC", 1, 1, 100, 0.5, 0.9, 0.4, true⟩
    Severity.critical 100 100 [] [] [] 0 1000
    (by decide) (by decide) rfl rfl (by decide)

/-- **C6 (amended)**: after a drift-check batch the stored alert log is the
last 100 entries of the previous log with the batch appended (and is left
untouched by an empty batch); every emitted alert is retained whenever the
batch has at most 100 alerts; and the stored log never exceeds 100 entries —
unconditionally after an emitting batch, and across successive checks from
any log of at most 100 entries. -/
theorem alert_log_append_trim (cfg : AlertConfig) (pf : Portfolio)
    (store : List StoredAlert) (hist : List Snapshot) (now : ℤ) :
    ((checkDriftAlerts cfg (Except.ok pf) store hist now).1.alerts ≠ [] →
      (checkDriftAlerts cfg (Except.ok pf) store hist now).2.1 =
        takeLast 100 (store ++ (checkDriftAlerts cfg (Except.ok pf) store hist now).1.alerts)) ∧
    ((checkDriftAlerts cfg (Except.ok pf) store hist now).1.alerts = [] →
      (checkDriftAlerts cfg (Except.ok pf) store hist now).2.1 = store) ∧
    ((checkDriftAlerts cfg (Except.ok pf) store hist now).1.alerts.length ≤ 100 →
      ∀ a ∈ (checkDriftAlerts cfg (Except.ok pf) store hist now).1.alerts,
        a ∈ (checkDriftAlerts cfg (Except.ok pf) store hist now).2.1) ∧
    ((checkDriftAlerts cfg (Except.ok pf) store hist now).1.alerts ≠ [] →
      (checkDriftAlerts cfg (Except.ok pf) store hist now).2.1.length ≤ 100) ∧
    (store.length ≤ 100 →
      (checkDriftAlerts cfg (Except.ok pf) store hist now).2.1.length ≤ 100) := by
  have halerts : (checkDriftAlerts cfg (Except.ok pf) store hist now).1.alerts =
      driftAlertsFor cfg pf.positions store now := rfl
  by_cases hb : driftAlertsFor cfg pf.positions store now = []
  · have hstore : (checkDriftAlerts cfg (Except.ok pf) store hist now).2.1 = store := by
      simp [checkDriftAlerts, hb]
    refine ⟨fun h => absurd (halerts.trans hb) h, fun _ => hstore, ?_, ?_, ?_⟩
    · intro _ a ha
      rw [halerts, hb] at ha
      exact absurd ha (List.not_mem_nil a)
    · intro h
      exact absurd (halerts.trans hb) h
    · intro h
      rw [hstore]
      exact h
  · have hlen : 0 < (driftAlertsFor cfg pf.positions store now).length :=
      List.length_pos.mpr hb
    have hstore : (checkDriftAlerts cfg (Except.ok pf) store hist now).2.1 =
        takeLast 100 (store ++ driftAlertsFor cfg pf.positions store now) := by
      simp [checkDriftAlerts, hlen]
    have hbound : (takeLast 100 (store ++ driftAlertsFor cfg pf.positions store now)).length ≤ 100 := by
      unfold takeLast
      simp only [List.length_drop, List.length_append]
      omega
    refine ⟨fun _ => by rw [hstore, halerts], fun h => absurd (halerts.symm.trans h) hb,
      ?_, fun _ => hstore ▸ hbound, fun _ => hstore ▸ hbound⟩
    intro hle a ha
    rw [halerts] at ha hle
    rw [hstore]
    exact mem_takeLast_append _ _ _ ha hle

/-- Witness for `alert_log_append_trim`: a single emitting check starting
from an empty log. -/
theorem alert_log_append_trim_wit :
    (checkDriftAlerts ⟨0.05, 0.10, 240⟩
        (Except.ok ⟨100, [⟨"BTC", 1, 1, 100, 0.5, 0.9, 0.4, true⟩]⟩) [] [] 0).2.1 =
      takeLast 100 ([] ++
        (checkDriftAlerts ⟨0.05, 0.10, 240⟩
          (Except.ok ⟨100, [⟨"BTC", 1, 1, 100, 0.5, 0.9, 0.4, true⟩]⟩) [] [] 0).1.alerts) ∧
    (checkDriftAlerts ⟨0.05, 0.10, 240⟩
        (Except.ok ⟨100, [⟨"BTC", 1, 1, 100, 0.5, 0.9, 0.4, true⟩]⟩) [] [] 0).2.1.length ≤ 100 := by
  have h := alert_log_append_trim ⟨0.05, 0.10, 240⟩
    ⟨100, [⟨"BTC", 1, 1, 100, 0.5, 0.9, 0.4, true⟩]⟩ [] [] 0
  exact ⟨h.1 (by decide), h.2.2.2.2 (by decide)⟩

/-- The counterexample configuration for the alert-log retention claim. -/
def cexConfig : AlertConfig := ⟨0.05, 0.10, 240⟩

/-- 101 distinct fully-drifted positions, enough to overflow the 100-entry
alert-log retention in a single batch. -/
def cexPositions : List Position :=
  (List.range 101).map (fun i =>
    ⟨"S" ++ toString i, 0, 0, 0, 0, 1, 1, true⟩)

set_option maxRecDepth 100000 in
/-- **C6 counterexample**: a single check of 101 distinct drifted positions
emits a batch of 101 alerts, but the persisted log — trimmed to the most
recent 100 — no longer contains the batch's first alert, so the log does not
contain every alert emitted in the batch. -/
theorem alert_log_drops_emitted_alert :
    (checkDriftAlerts cexConfig (Except.ok ⟨0, cexPositions⟩) [] [] 0).1.alerts.length = 101 ∧
    (checkDriftAlerts cexConfig (Except.ok ⟨0, cexPositions⟩) [] [] 0).1.alerts.getD 0 default ∈
      (checkDriftAlerts cexConfig (Except.ok ⟨0, cexPositions⟩) [] [] 0).1.alerts ∧
    (checkDriftAlerts cexConfig (Except.ok ⟨0, cexPositions⟩) [] [] 0).1.alerts.getD 0 default ∉
      (checkDriftAlerts cexConfig (Except.ok ⟨0, cexPositions⟩) [] [] 0).2.1 := by
  decide

/-- **C10 counterexample**: with only the BTC price missing and with only the
MSTR price missing, `calculateMnav` returns the same fixed error result
`"Failed to fetch prices"`; since different sets of missing symbols produce
identical error results, the error does not report which symbols are
missing. -/
theorem mnav_error_not_symbol_specific :
    calculateMnav none (some 400) 226000000 640000 3 1 =
      Except.error "Failed to fetch prices" ∧
    calculateMnav (some 100000) none 226000000 640000 3 1 =
      Except.error "Failed to fetch prices" ∧
    calculateMnav none (some 400) 226000000 640000 3 1 =
      calculateMnav (some 100000) none 226000000 640000 3 1 := by
  refine ⟨rfl, rfl, rfl⟩

/-- **C10 (amended)**: when the BTC or MSTR price is unavailable the mNAV
valuation returns the fixed error `"Failed to fetch prices"` (not one naming
the missing symbols) instead of computing with zeros; the spec-modelled
portfolio valuation errors naming the missing symbols; and the drift check
propagates a valuation error as an error result with an empty alert list,
leaving the persisted alert log and drift history unchanged. -/
theorem missing_price_error_propagation
    (btcPrice mstrPrice : Option ℚ) (so bh hi lo : ℚ)
    (cfg : AlertConfig) (e : String) (store : List StoredAlert)
    (hist : List Snapshot) (now : ℤ)
    (holdings : List Holding) (prices : String → Option ℚ) (trig : ℚ)
    (hmnav : btcPrice = none ∨ mstrPrice = none)
    (hpf : prices "BTC" = none ∨ prices "MSTR" = none) :
    calculateMnav btcPrice mstrPrice so bh hi lo =
      Except.error "Failed to fetch prices" ∧
    checkDriftAlerts cfg (Except.error e) store hist now = (⟨[], some e⟩, store, hist) ∧
    (∃ msg : String, calculatePortfolio holdings prices trig = Except.error msg ∧
      checkDriftAlerts cfg (calculatePortfolio holdings prices trig) store hist now =
        (⟨[], some msg⟩, store, hist)) := by
  refine ⟨?_, rfl, ?_⟩
  · rcases hmnav with h | h <;> simp [calculateMnav, jsFalsy, h]
  · have hmiss : (["BTC", "MSTR"].filter (fun s => (prices s).isNone)).isEmpty = false := by
      rcases hpf with h | h
      · simp [List.filter, h]
      · rcases hb : prices "BTC" with _ | v <;> simp [List.filter, h, hb]
    refine ⟨"Missing price data: " ++ String.intercalate ", "
      (["BTC", "MSTR"].filter (fun s => (prices s).isNone)), ?_, ?_⟩
    · simp only [calculatePortfolio]
      rw [if_neg (by simp [hmiss])]
    · have herr : calculatePortfolio holdings prices trig =
          Except.error ("Missing price data: " ++ String.intercalate ", "
            (["BTC", "MSTR"].filter (fun s => (prices s).isNone))) := by
        simp only [calculatePortfolio]
        rw [if_neg (by simp [hmiss])]
      rw [herr]
      rfl

/-- Witness for `missing_price_error_propagation`: both prices missing, empty
stored state. -/
theorem missing_price_error_propagation_wit :
    calculateMnav none (some 400) 226000000 640000 3 1 =
      Except.error "Failed to fetch prices" ∧
    checkDriftAlerts ⟨0.05, 0.10, 240⟩ (Except.error "Failed to fetch prices")
      [] [] 0 = (⟨[], some "Failed to fetch prices"⟩, [], []) ∧
    (∃ msg : String,
      calculatePortfolio [] (fun _ => none) 0.10 = Except.error msg ∧
      checkDriftAlerts ⟨0.05, 0.10, 240⟩ (calculatePortfolio [] (fun _ => none) 0.10)
        [] [] 0 = (⟨[], some msg⟩, [], [])) :=
  missing_price_error_propagation none (some 400) 226000000 640000 3 1
    ⟨0.05, 0.10, 240⟩ "Failed to fetch prices" [] [] 0 [] (fun _ => none) 0.10
    (Or.inl rfl) (Or.inl rfl)

end Theorems

end AnalystAgent
